import Mathlib

/-!
# Verification of `audiowave.py` (s4un3/audiorender)

Shallow embedding of the audio-synthesis core in `src/audiowave.py`.
Python floats are modelled as rationals (`ℚ`), Python ints as `ℤ`,
Python lists as `List ℚ`.  Raised exceptions are modelled with an
explicit error type; a method that mutates its receiver or an argument
is embedded in state-passing style, returning the post-call states of
every object it may have touched.  Python's `/` raises
`ZeroDivisionError` on a zero divisor; the embedding surfaces that
error explicitly wherever the divisor is not syntactically nonzero.
-/

/-- The exception kinds raised by the source file. -/
inductive PyError where
  | valueError : String → PyError
  | typeError : String → PyError
  | zeroDivisionError : PyError
  deriving DecidableEq, Repr

deriving instance DecidableEq for Except

/-- Message of the `ValueError` raised by `AudioWave.new` on bad arguments
(`src/audiowave.py:71`). -/
def synthArgMsg : String :=
  "'duration' and 'samplerate' must be positive numbers."

/-- Message of the `ValueError` raised on sample-rate mismatch by `__add__`
(`src/audiowave.py:117`) and `append` (`src/audiowave.py:165`). -/
def rateMismatchMsg : String :=
  "All waves must have the same samplerate in order to join."

/-- `WaveParam = float | int | Callable[[float], float]`
(`src/audiowave.py:7`): a frequency/amplitude argument is either a
number or a function of time.  The two numeric Python cases collapse
into one rational case. -/
inductive WaveParam where
  | num : ℚ → WaveParam
  | fn : (ℚ → ℚ) → WaveParam

/-- `WaveParamHandler.__call__` (`src/audiowave.py:49`): a numeric
content is returned unchanged for every argument, a callable content is
invoked on the argument.  (The `TypeError` check of
`WaveParamHandler.__init__` is enforced here by the type of
`WaveParam` itself.) -/
def WaveParam.call : WaveParam → ℚ → ℚ
  | .num c, _ => c
  | .fn f, t => f t

/-- `np.linspace(0, stop, num)` (with numpy's default `endpoint=True`),
as used at `src/audiowave.py:84`: `num` evenly spaced points from `0`
to `stop` inclusive, i.e. `i * stop / (num - 1)`; for `num = 1` the
single point is the start `0`; for `num = 0` the list is empty. -/
def linspace (stop : ℚ) (num : ℕ) : List ℚ :=
  (List.range num).map fun i : ℕ =>
    if num = 1 then 0 else (i : ℚ) * stop / ((num : ℚ) - 1)

/-- The `while time < duration` loop of `AudioWave.new` for a callable
frequency (`src/audiowave.py:96`–`99`): at each step the cumulative
frequency sum is first advanced by `freq(time) * delta_time`, then
`waveform(csumfreq) * amp(time)` is appended, then `time` is advanced
by `delta_time`.  The positivity hypothesis on `delta_time` (true at
the call site, where `delta_time = 1 / samplerate` with
`samplerate > 0`) makes the loop terminate. -/
def tvLoop (freq amp waveform : ℚ → ℚ) (duration delta_time : ℚ)
    (hdt : 0 < delta_time) (time csumfreq : ℚ) : List ℚ :=
  if h : time < duration then
    waveform (csumfreq + freq time * delta_time) * amp time ::
      tvLoop freq amp waveform duration delta_time hdt (time + delta_time)
        (csumfreq + freq time * delta_time)
  else []
termination_by (⌈(duration - time) / delta_time⌉).toNat
decreasing_by
  have hpos : (0 : ℚ) < (duration - time) / delta_time :=
    div_pos (sub_pos.mpr h) hdt
  have hone : (1 : ℤ) ≤ ⌈(duration - time) / delta_time⌉ :=
    Int.ceil_pos.mpr hpos
  have hstep : (duration - (time + delta_time)) / delta_time
      = (duration - time) / delta_time - 1 := by
    field_simp
    ring
  rw [hstep, Int.ceil_sub_one]
  omega

/-- The `AudioWave` record (`src/audiowave.py:56`): the sample buffer
`wave`, the `samplerate`, the voice-count `significance`, and the
nominal `duration`. -/
structure AudioWave where
  wave : List ℚ
  samplerate : ℤ
  significance : ℤ
  duration : ℚ
  deriving DecidableEq, Repr

/-- `AudioWave.new` (`src/audiowave.py:58`–`101`).  Checks
`duration < 0 or samplerate < 0` and raises `ValueError` if so; then
for a constant frequency builds the buffer by mapping the waveform over
`np.linspace(0, duration, int(samplerate * duration))`
(`int(·)` truncates; the product is nonnegative here, so it is a
floor); for a callable frequency runs the Riemann-summation loop with
`delta_time = 1 / samplerate` (a `ZeroDivisionError` when
`samplerate = 0`).  The fresh wave has `significance = 1` and stores
`samplerate` and `duration` as given. -/
def AudioWave.new (freq amp : WaveParam) (duration : ℚ) (samplerate : ℤ)
    (waveform : ℚ → ℚ) : Except PyError AudioWave :=
  if hbad : duration < 0 ∨ samplerate < 0 then
    .error (.valueError synthArgMsg)
  else
    match freq with
    | .num f =>
        .ok { wave := (linspace duration
                (⌊(samplerate : ℚ) * duration⌋).toNat).map
                  (fun time => waveform (time * f) * amp.call time)
              samplerate := samplerate
              significance := 1
              duration := duration }
    | .fn f =>
        if hz : samplerate = 0 then
          .error .zeroDivisionError
        else
          .ok { wave := tvLoop f amp.call waveform duration
                  (1 / (samplerate : ℚ))
                  (by
                    push_neg at hbad
                    have h1 : (0 : ℤ) < samplerate :=
                      lt_of_le_of_ne hbad.2 (Ne.symm hz)
                    have h2 : (0 : ℚ) < (samplerate : ℚ) := by
                      exact_mod_cast h1
                    positivity)
                  0 0
                samplerate := samplerate
                significance := 1
                duration := duration }

/-- `AudioWave.copy` (`src/audiowave.py:103`–`113`): a fresh object
with a duplicated sample list and the same scalar fields.  (List
aliasing does not exist in the pure embedding; the copy is the
field-by-field rebuild the source performs.) -/
def AudioWave.copy (self : AudioWave) : AudioWave :=
  { wave := self.wave
    samplerate := self.samplerate
    duration := self.duration
    significance := self.significance }

/-- `AudioWave.__add__` (`src/audiowave.py:115`–`134`): raises
`ValueError` on sample-rate mismatch, otherwise builds a fresh wave of
length `max` of the two lengths, summing element-wise with `0` for
out-of-range indexes (`List.getD i 0` is exactly
`self.wave[i] if i < len(self.wave) else 0`), significance the sum,
duration the max, samplerate the shared one.  Neither operand is
written to (the source only assigns fields of the fresh `aux`). -/
def AudioWave.add (self other : AudioWave) : Except PyError AudioWave :=
  if other.samplerate ≠ self.samplerate then
    .error (.valueError rateMismatchMsg)
  else
    .ok { wave := (List.range (max self.wave.length other.wave.length)).map
            (fun i => self.wave.getD i 0 + other.wave.getD i 0)
          significance := self.significance + other.significance
          duration := max self.duration other.duration
          samplerate := self.samplerate }

/-- `AudioWave.scale` (`src/audiowave.py:136`–`141`): multiplies every
sample by `factor` in place; the state-passing embedding returns the
mutated receiver (the source returns `self`). -/
def AudioWave.scale (self : AudioWave) (factor : ℚ) : AudioWave :=
  { self with wave := self.wave.map (· * factor) }

/-- `AudioWave.__mul__` (`src/audiowave.py:143`–`149`): scales a copy,
leaving the receiver untouched. -/
def AudioWave.mul (self : AudioWave) (factor : ℚ) : AudioWave :=
  self.copy.scale factor

/-- Outcome of `AudioWave.append`: the error, if one was raised, plus
the post-call states of `self` and of the caller-supplied `other`
(which the default path mutates). -/
structure AppendResult where
  err : Option PyError
  self : AudioWave
  other : AudioWave
  deriving DecidableEq, Repr

/-- `AudioWave.append` (`src/audiowave.py:151`–`181`).  Python defaults
are `new_significance = 1`, `keep_significance_of_other = False`; the
embedding takes them explicitly.  Order of the source: the mismatch
check raises before anything is written; then
`self.duration += other.duration`; then `self.scale(1 / self.significance)`
(a `ZeroDivisionError` if `significance = 0`, with the duration already
updated); then either a normalized copy `other * (1 / other.significance)`
is concatenated (keep flag), or `other` itself is scaled in place, its
significance set to `1`, and its buffer concatenated; finally
`self.significance = new_significance`. -/
def AudioWave.append (self other : AudioWave) (new_significance : ℤ)
    (keep_significance_of_other : Bool) : AppendResult :=
  if other.samplerate ≠ self.samplerate then
    ⟨some (.valueError rateMismatchMsg), self, other⟩
  else
    let self1 : AudioWave := { self with duration := self.duration + other.duration }
    if self1.significance = 0 then
      ⟨some .zeroDivisionError, self1, other⟩
    else
      let self2 := self1.scale (1 / (self1.significance : ℚ))
      if keep_significance_of_other then
        if other.significance = 0 then
          ⟨some .zeroDivisionError, self2, other⟩
        else
          let normalized_other := other.mul (1 / (other.significance : ℚ))
          ⟨none,
           { self2 with wave := self2.wave ++ normalized_other.wave
                        significance := new_significance },
           other⟩
      else
        if other.significance = 0 then
          ⟨some .zeroDivisionError, self2, other⟩
        else
          let other2 : AudioWave :=
            { other.scale (1 / (other.significance : ℚ)) with significance := 1 }
          ⟨none,
           { self2 with wave := self2.wave ++ other2.wave
                        significance := new_significance },
           other2⟩

/-- `AudioWave.play` (`src/audiowave.py:183`–`190`): normalizes a copy
(`self * (1 / self.significance)`, a `ZeroDivisionError` when
`significance = 0`), hands its buffer and samplerate to the playback
sink, and returns `self`.  The embedding returns the pair handed to the
device together with the returned object. -/
def AudioWave.play (self : AudioWave) :
    Except PyError (List ℚ × ℤ × AudioWave) :=
  if self.significance = 0 then
    .error .zeroDivisionError
  else
    let aux := self.mul (1 / (self.significance : ℚ))
    .ok (aux.wave, aux.samplerate, self)

/-- Truncation toward zero, as Python's float-to-integer conversion
performs. -/
def truncQ (x : ℚ) : ℤ :=
  if 0 ≤ x then ⌊x⌋ else ⌈x⌉

/-- Wrap an integer into the 16-bit signed range, as `np.int16` does. -/
def int16wrap (n : ℤ) : ℤ :=
  (n + 2 ^ 15) % 2 ^ 16 - 2 ^ 15

/-- `AudioWave.export_wav` (`src/audiowave.py:192`–`198`): normalizes a
copy (`self * (1 / self.significance)`), quantizes it to 16-bit PCM
(`np.int16(np.array(aux.wave) * 32767)`), writes it at the copy's
samplerate, and returns `self`.  The embedding returns the written
buffer and rate together with the returned object. -/
def AudioWave.export_wav (self : AudioWave) :
    Except PyError (List ℤ × ℤ × AudioWave) :=
  if self.significance = 0 then
    .error .zeroDivisionError
  else
    let aux := self.mul (1 / (self.significance : ℚ))
    .ok (aux.wave.map (fun x => int16wrap (truncQ (x * 32767))),
         aux.samplerate, self)

/-- The data-model invariants of §3 of the spec: positive sample rate,
nonnegative duration, significance at least 1. -/
def AudioWaveInv (w : AudioWave) : Prop :=
  0 < w.samplerate ∧ 0 ≤ w.duration ∧ 1 ≤ w.significance

instance (w : AudioWave) : Decidable (AudioWaveInv w) := by
  unfold AudioWaveInv; infer_instance

/-! ## Helper lemmas -/

theorem linspace_length (stop : ℚ) (num : ℕ) : (linspace stop num).length = num := by
  unfold linspace
  rw [List.length_map, List.length_range]

theorem linspace_map_getD (g : ℚ → ℚ) (stop : ℚ) (num : ℕ) (i : ℕ) (hi : i < num) :
    ((linspace stop num).map g).getD i 0 =
      g (if num = 1 then 0 else (i : ℚ) * stop / ((num : ℚ) - 1)) := by
  unfold linspace
  rw [List.map_map]
  rw [List.getD_eq_getElem _ _ (by rw [List.length_map, List.length_range]; exact hi)]
  rw [List.getElem_map, List.getElem_range]
  rfl

/-! ## Claim theorems -/

/-- C1: the spec claims `AudioWave.new` rejects `sample_rate <= 0` with
`InvalidSynthesisArgument`, and the source's own error message says
"'duration' and 'samplerate' must be positive numbers."; but the guard at
`src/audiowave.py:70` tests `samplerate < 0`, so `samplerate = 0` slips
through: with a constant frequency the call succeeds and returns an empty
buffer whose `samplerate` field is `0`.  A negative duration is rejected as
claimed.  This theorem evaluates the code at both inputs. -/
theorem c1_zero_samplerate_not_rejected :
    AudioWave.new (.num 1) (.num 1) (-1) 44100 (fun x => x)
        = .error (.valueError synthArgMsg) ∧
    AudioWave.new (.num 1) (.num 1) 1 0 (fun x => x)
        = .ok { wave := [], samplerate := 0, significance := 1, duration := 1 } := by
  constructor
  · rfl
  · unfold AudioWave.new
    rw [dif_neg (by norm_num)]
    norm_num [linspace]

/-- C3: `append` with the Python default arguments
(`new_significance = 1`, `keep_significance_of_other = False`) on a
`self` with significance 2 and samples `[2, 2]` and an `other` with
significance 1 and samples `[3, 3, 3]` (any equal sample rates, any
durations) yields `self.samples == [1, 1, 3, 3, 3]`,
`self.significance == 1`, `self.duration` the sum of the two durations,
and `other` renormalized in place (scaled by `1 / other.significance`,
significance set to 1). -/
theorem c3_append_default_example (d1 d2 : ℚ) (r : ℤ) :
    AudioWave.append ⟨[2, 2], r, 2, d1⟩ ⟨[3, 3, 3], r, 1, d2⟩ 1 false =
      ⟨none, ⟨[1, 1, 3, 3, 3], r, 1, d1 + d2⟩, ⟨[3, 3, 3], r, 1, d2⟩⟩ := by
  simp [AudioWave.append, AudioWave.scale]

/-- C4: for operands with equal sample rates, `__add__` succeeds and
returns a fresh wave whose length is the max of the two lengths, whose
entry at every index is the element-wise sum with indexes past a
shorter buffer's end read as `0` (stated via `getD _ 0`, which is `0`
beyond the end, so the equation holds at every index), whose duration
is the max of the durations and whose samplerate is the shared rate.
Neither operand appears in the result state: `AudioWave.add` is a pure
function of its arguments, as the source only writes fields of the
fresh `aux` object. -/
theorem c4_add_elementwise (a b : AudioWave) (h : a.samplerate = b.samplerate) :
    ∃ r, a.add b = .ok r ∧
      r.wave.length = max a.wave.length b.wave.length ∧
      (∀ i : ℕ, r.wave.getD i 0 = a.wave.getD i 0 + b.wave.getD i 0) ∧
      r.duration = max a.duration b.duration ∧
      r.samplerate = a.samplerate := by
  unfold AudioWave.add
  rw [if_neg (by simp [h])]
  refine ⟨_, rfl, by simp, ?_, rfl, rfl⟩
  intro i
  by_cases hi : i < max a.wave.length b.wave.length
  · rw [List.getD_eq_getElem _ _ (by simpa using hi)]
    simp
  · push_neg at hi
    rw [List.getD_eq_default _ _ (by simpa using hi),
      List.getD_eq_default _ _ (le_trans (le_max_left _ _) hi),
      List.getD_eq_default _ _ (le_trans (le_max_right _ _) hi)]
    norm_num

/-- Witness for C4 at the concrete operands `⟨[1,2,3], 5, 1, 1⟩` and
`⟨[10,20], 5, 2, 2⟩`. -/
theorem c4_add_elementwise_witness :
    ∃ r, AudioWave.add ⟨[1, 2, 3], 5, 1, 1⟩ ⟨[10, 20], 5, 2, 2⟩ = .ok r ∧
      r.wave.length = max 3 2 ∧
      (∀ i : ℕ, r.wave.getD i 0 =
        ([1, 2, 3] : List ℚ).getD i 0 + ([10, 20] : List ℚ).getD i 0) ∧
      r.duration = max 1 2 ∧
      r.samplerate = 5 :=
  c4_add_elementwise ⟨[1, 2, 3], 5, 1, 1⟩ ⟨[10, 20], 5, 2, 2⟩ rfl

/-- C5: `__add__` and `append` raise the sample-rate-mismatch
`ValueError` exactly when the two operands' sample rates differ, and on
that error `append` has mutated nothing: the returned states of `self`
and `other` are the call's inputs (and `add` never writes to an operand
at all, so on its error no state exists to be mutated). -/
theorem c5_rate_mismatch_iff (a b : AudioWave) (ns : ℤ) (keep : Bool) :
    (a.add b = .error (.valueError rateMismatchMsg) ↔ a.samplerate ≠ b.samplerate) ∧
    ((a.append b ns keep).err = some (.valueError rateMismatchMsg) ↔
      a.samplerate ≠ b.samplerate) ∧
    (a.samplerate ≠ b.samplerate →
      (a.append b ns keep).self = a ∧ (a.append b ns keep).other = b) := by
  refine ⟨?_, ?_, ?_⟩
  · unfold AudioWave.add
    by_cases h : b.samplerate = a.samplerate
    · rw [if_neg (by simp [h])]
      simp [h]
    · rw [if_pos h]
      simp [Ne.symm h]
  · unfold AudioWave.append
    by_cases h : b.samplerate = a.samplerate
    · rw [if_neg (by simp [h])]
      constructor
      · intro hc
        exfalso
        revert hc
        dsimp only
        split_ifs <;> simp
      · intro hc
        exact (hc h.symm).elim
    · rw [if_pos h]
      simp [Ne.symm h]
  · intro h
    unfold AudioWave.append
    rw [if_pos (Ne.symm h)]
    exact ⟨rfl, rfl⟩

/-- Witness for C5 at mismatched rates `1 ≠ 2`. -/
theorem c5_rate_mismatch_iff_witness :
    AudioWave.add ⟨[], 1, 1, 0⟩ ⟨[], 2, 1, 0⟩
      = .error (.valueError rateMismatchMsg) :=
  (c5_rate_mismatch_iff ⟨[], 1, 1, 0⟩ ⟨[], 2, 1, 0⟩ 1 false).1.mpr (by decide)

/-- C8: for equal sample rates, addition is commutative in the sample
buffer, and both orders give significance exactly
`a.significance + b.significance`. -/
theorem c8_add_commutative (a b : AudioWave) (h : a.samplerate = b.samplerate) :
    ∃ r1 r2, a.add b = .ok r1 ∧ b.add a = .ok r2 ∧
      r1.wave = r2.wave ∧
      r1.significance = a.significance + b.significance ∧
      r2.significance = a.significance + b.significance := by
  unfold AudioWave.add
  rw [if_neg (by simp [h]), if_neg (by simp [h])]
  refine ⟨_, _, rfl, rfl, ?_, rfl, by simp [add_comm]⟩
  rw [Nat.max_comm]
  exact List.map_congr_left fun i _ => add_comm _ _

/-- Witness for C8 at the concrete operands `⟨[1,2,3], 5, 1, 1⟩` and
`⟨[10,20], 5, 2, 2⟩`. -/
theorem c8_add_commutative_witness :
    ∃ r1 r2, AudioWave.add ⟨[1, 2, 3], 5, 1, 1⟩ ⟨[10, 20], 5, 2, 2⟩ = .ok r1 ∧
      AudioWave.add ⟨[10, 20], 5, 2, 2⟩ ⟨[1, 2, 3], 5, 1, 1⟩ = .ok r2 ∧
      r1.wave = r2.wave ∧ r1.significance = 1 + 2 ∧ r2.significance = 1 + 2 :=
  c8_add_commutative ⟨[1, 2, 3], 5, 1, 1⟩ ⟨[10, 20], 5, 2, 2⟩ rfl

/-- C6: `append` with `keep_significance_of_other = True` returns the
caller's `other` object unchanged (every field, in every branch reached
with equal sample rates), and on the successful path the data
concatenated onto `self` is the wave of the normalized copy
`other * (1 / other.significance)` built by `__mul__`, not of `other`
itself. -/
theorem c6_append_keep_no_mutation (self other : AudioWave) (ns : ℤ)
    (h : other.samplerate = self.samplerate) :
    (self.append other ns true).other = other ∧
    (self.significance ≠ 0 → other.significance ≠ 0 →
      (self.append other ns true).err = none ∧
      (self.append other ns true).self.wave =
        (AudioWave.scale { self with duration := self.duration + other.duration }
            (1 / (self.significance : ℚ))).wave ++
          (other.mul (1 / (other.significance : ℚ))).wave) := by
  have hg : ¬ other.samplerate ≠ self.samplerate := by simp [h]
  constructor
  · unfold AudioWave.append
    rw [if_neg hg]
    dsimp only
    split_ifs with h1 h2 h3 <;> first | rfl | exact (h2 rfl).elim
  · intro h1 h2
    unfold AudioWave.append
    rw [if_neg hg]
    dsimp only
    rw [if_neg h1, if_pos rfl, if_neg h2]
    exact ⟨rfl, rfl⟩

/-- Witness for C6 at `self = ⟨[2,2], 1, 2, 2⟩`, `other = ⟨[3,3,3], 1, 1, 3⟩`. -/
theorem c6_append_keep_no_mutation_witness :
    (AudioWave.append ⟨[2, 2], 1, 2, 2⟩ ⟨[3, 3, 3], 1, 1, 3⟩ 1 true).other
      = ⟨[3, 3, 3], 1, 1, 3⟩ :=
  (c6_append_keep_no_mutation ⟨[2, 2], 1, 2, 2⟩ ⟨[3, 3, 3], 1, 1, 3⟩ 1 rfl).1

/-- C10: `play` and `export_wav` both normalize a copy
(`self * (1 / self.significance)`, which goes through `copy`), hand the
copy's data to the device/file, and return the original object `self`
itself: the embedding's result states that the returned wave is `w`,
every field included, so the caller observes no change.  The
`significance ≠ 0` hypothesis is the data-model invariant
(`significance ≥ 1`); at `significance = 0` Python would raise
`ZeroDivisionError` instead. -/
theorem c10_play_export_return_self (w : AudioWave) (h : w.significance ≠ 0) :
    w.play = .ok ((w.mul (1 / (w.significance : ℚ))).wave, w.samplerate, w) ∧
    w.export_wav = .ok ((w.mul (1 / (w.significance : ℚ))).wave.map
        (fun x => int16wrap (truncQ (x * 32767))), w.samplerate, w) := by
  unfold AudioWave.play AudioWave.export_wav
  rw [if_neg h, if_neg h]
  exact ⟨rfl, rfl⟩

/-- Witness for C10 at `w = ⟨[2,4], 3, 2, 1⟩`. -/
theorem c10_play_export_return_self_witness :
    (⟨[2, 4], 3, 2, 1⟩ : AudioWave).play
        = .ok (((⟨[2, 4], 3, 2, 1⟩ : AudioWave).mul (1 / 2)).wave, 3,
               ⟨[2, 4], 3, 2, 1⟩) ∧
    (⟨[2, 4], 3, 2, 1⟩ : AudioWave).export_wav
        = .ok ((((⟨[2, 4], 3, 2, 1⟩ : AudioWave).mul (1 / 2)).wave).map
          (fun x => int16wrap (truncQ (x * 32767))), 3, ⟨[2, 4], 3, 2, 1⟩) :=
  c10_play_export_return_self ⟨[2, 4], 3, 2, 1⟩ (by decide)

/-- C9 counterexample: the claim fails as stated.  `append` stores the
caller-supplied `new_significance` without validation
(`src/audiowave.py:181`), so with `new_significance = 0` a successful
append leaves behind a wave violating `significance >= 1`, even though
both operands satisfy every data-model invariant. -/
theorem c9_invariants_counterexample :
    AudioWaveInv ⟨[1], 1, 1, 1⟩ ∧
    (AudioWave.append ⟨[1], 1, 1, 1⟩ ⟨[1], 1, 1, 1⟩ 0 false).err = none ∧
    ¬ AudioWaveInv (AudioWave.append ⟨[1], 1, 1, 1⟩ ⟨[1], 1, 1, 1⟩ 0 false).self := by
  have happ : AudioWave.append ⟨[1], 1, 1, 1⟩ ⟨[1], 1, 1, 1⟩ 0 false
      = ⟨none, ⟨[1, 1], 1, 0, 2⟩, ⟨[1], 1, 1, 1⟩⟩ := by
    simp [AudioWave.append, AudioWave.scale]
    norm_num
  rw [happ]
  refine ⟨by norm_num [AudioWaveInv], rfl, ?_⟩
  intro hInv
  exact absurd hInv.2.2 (by norm_num)

/-- C9 amended: every core operation preserves the data-model
invariants (`sample_rate > 0`, `duration >= 0`, `significance >= 1`) on
every wave it produces or leaves behind, provided `new` is called with
`sample_rate > 0` (the code accepts `0`, see C1) and `append` with
`new_significance >= 1` (the code accepts any integer). -/
theorem c9_amended_invariants :
    (∀ freq amp D (R : ℤ) wf w, 0 < R → AudioWave.new freq amp D R wf = .ok w →
      AudioWaveInv w) ∧
    (∀ w : AudioWave, AudioWaveInv w → AudioWaveInv w.copy) ∧
    (∀ (w : AudioWave) (k : ℚ), AudioWaveInv w → AudioWaveInv (w.scale k)) ∧
    (∀ (w : AudioWave) (k : ℚ), AudioWaveInv w → AudioWaveInv (w.mul k)) ∧
    (∀ a b r, AudioWaveInv a → AudioWaveInv b → a.add b = .ok r →
      AudioWaveInv r) ∧
    (∀ (a b : AudioWave) (ns : ℤ) (keep : Bool), AudioWaveInv a →
      AudioWaveInv b → 1 ≤ ns →
      AudioWaveInv (a.append b ns keep).self ∧
        AudioWaveInv (a.append b ns keep).other) := by
  refine ⟨?_, ?_, ?_, ?_, ?_, ?_⟩
  · intro freq amp D R wf w hR hok
    unfold AudioWave.new at hok
    split at hok
    · exact absurd hok (by simp)
    · rename_i hbad
      push_neg at hbad
      split at hok
      · injection hok with hw
        rw [← hw]
        exact ⟨hR, hbad.1, le_refl 1⟩
      · split at hok
        · exact absurd hok (by simp)
        · injection hok with hw
          rw [← hw]
          exact ⟨hR, hbad.1, le_refl 1⟩
  · exact fun w hw => hw
  · exact fun w k hw => hw
  · exact fun w k hw => hw
  · intro a b r ha hb hok
    unfold AudioWave.add at hok
    split at hok
    · exact absurd hok (by simp)
    · injection hok with hr
      rw [← hr]
      refine ⟨ha.1, le_trans ha.2.1 (le_max_left _ _), ?_⟩
      show (1 : ℤ) ≤ a.significance + b.significance
      have h1 := ha.2.2
      have h2 := hb.2.2
      omega
  · intro a b ns keep ha hb hns
    unfold AudioWave.append
    by_cases hg : b.samplerate ≠ a.samplerate
    · rw [if_pos hg]
      exact ⟨ha, hb⟩
    · rw [if_neg hg]
      dsimp only
      have h1 : ¬ a.significance = 0 := by
        have := ha.2.2
        omega
      have h2 : ¬ b.significance = 0 := by
        have := hb.2.2
        omega
      rw [if_neg h1]
      cases keep with
      | true =>
        rw [if_pos rfl, if_neg h2]
        exact ⟨⟨ha.1, add_nonneg ha.2.1 hb.2.1, hns⟩, hb⟩
      | false =>
        rw [if_neg (by decide), if_neg h2]
        exact ⟨⟨ha.1, add_nonneg ha.2.1 hb.2.1, hns⟩, ⟨hb.1, hb.2.1, le_refl 1⟩⟩

/-- Witness for C9 amended, exercising the `copy` clause at a concrete
invariant-satisfying wave. -/
theorem c9_amended_invariants_witness :
    AudioWaveInv ((⟨[1], 1, 1, 1⟩ : AudioWave).copy) :=
  c9_amended_invariants.2.1 ⟨[1], 1, 1, 1⟩ (by decide)

/-- The constant-frequency sample list exactly as §4.2 of the spec words
it, for comparison with the source: `N = floor(sample_rate * duration)`
evenly spaced time points `t_i` in the half-open interval
`[0, duration)`, i.e. `t_i = i * duration / N`, with sample
`shape(t_i * frequency) * amplitude.evaluate(t_i)`. -/
def specConstWave (f : ℚ) (amp : WaveParam) (duration : ℚ) (samplerate : ℤ)
    (waveform : ℚ → ℚ) : List ℚ :=
  (List.range (⌊(samplerate : ℚ) * duration⌋).toNat).map fun i : ℕ =>
    waveform ((i : ℚ) * duration / (((⌊(samplerate : ℚ) * duration⌋).toNat : ℚ)) * f) *
      amp.call ((i : ℚ) * duration / (((⌊(samplerate : ℚ) * duration⌋).toNat : ℚ)))

/-- C2 counterexample: with `f = 1`, `amp = 1`, `D = 1`, `R = 2` and the
identity shape, the code produces the buffer `[0, 1]` — its second
sample sits at time `1 = D`, which no time point of the claimed
half-open grid `[0, D)` can produce (with the identity shape and unit
amplitude the sample equals its time point); the spec-worded half-open
grid would give `[0, 1/2]` instead.  `np.linspace`'s default endpoint
inclusion puts the `N` points on the closed interval `[0, D]`. -/
theorem c2_constant_mode_counterexample :
    (AudioWave.new (.num 1) (.num 1) 1 2 (fun x => x)).map AudioWave.wave
        = .ok [0, 1] ∧
    specConstWave 1 (.num 1) 1 2 (fun x => x) = [0, 1 / 2] ∧
    ¬ ∃ t : ℚ, 0 ≤ t ∧ t < 1 ∧ (fun x => x) (t * 1) * (WaveParam.num 1).call t = 1 := by
  have hfloor : (⌊((2 : ℤ) : ℚ) * 1⌋).toNat = 2 := by
    rw [mul_one, Int.floor_intCast]
    rfl
  refine ⟨?_, ?_, ?_⟩
  · unfold AudioWave.new
    rw [dif_neg (by norm_num)]
    simp only [Except.map, linspace, hfloor, WaveParam.call]
    norm_num [List.range_succ]
  · simp only [specConstWave, hfloor, WaveParam.call]
    norm_num [List.range_succ]
  · rintro ⟨t, ht0, ht1, heq⟩
    simp only [WaveParam.call, mul_one] at heq
    rw [heq] at ht1
    exact absurd ht1 (lt_irrefl 1)

/-- C2 amended: constant-frequency synthesis does produce exactly
`N = floor(R * D)` samples with sample `i` equal to
`shape(t_i * f) * amp(t_i)`, but the `N` evenly spaced time points are
`np.linspace`'s grid over the closed interval `[0, D]` —
`t_i = i * D / (N - 1)`, endpoint included, with `t_0 = 0` when
`N = 1` — not points of the half-open interval `[0, D)`. -/
theorem c2_amended_constant_mode (f : ℚ) (amp : WaveParam) (D : ℚ) (R : ℤ)
    (waveform : ℚ → ℚ) (hD : 0 ≤ D) (hR : 0 < R) :
    ∃ w, AudioWave.new (.num f) amp D R waveform = .ok w ∧
      w.wave.length = (⌊(R : ℚ) * D⌋).toNat ∧
      (∀ i : ℕ, i < (⌊(R : ℚ) * D⌋).toNat →
        w.wave.getD i 0 =
          waveform ((if (⌊(R : ℚ) * D⌋).toNat = 1 then 0
              else (i : ℚ) * D / (((⌊(R : ℚ) * D⌋).toNat : ℚ) - 1)) * f) *
            amp.call (if (⌊(R : ℚ) * D⌋).toNat = 1 then 0
              else (i : ℚ) * D / (((⌊(R : ℚ) * D⌋).toNat : ℚ) - 1))) ∧
      w.samplerate = R ∧ w.significance = 1 ∧ w.duration = D := by
  unfold AudioWave.new
  rw [dif_neg (by push_neg; exact ⟨hD, hR.le⟩)]
  refine ⟨_, rfl, ?_, ?_, rfl, rfl, rfl⟩
  · rw [List.length_map, linspace_length]
  · intro i hi
    rw [linspace_map_getD _ D _ i hi]

/-- Witness for C2 amended at `f = 1`, `amp = 1`, `D = 1`, `R = 2`. -/
theorem c2_amended_constant_mode_witness :
    ∃ w, AudioWave.new (.num 1) (.num 1) 1 2 (fun x => x) = .ok w ∧
      w.wave.length = (⌊((2 : ℤ) : ℚ) * 1⌋).toNat ∧
      (∀ i : ℕ, i < (⌊((2 : ℤ) : ℚ) * 1⌋).toNat →
        w.wave.getD i 0 =
          (fun x => x) ((if (⌊((2 : ℤ) : ℚ) * 1⌋).toNat = 1 then 0
              else (i : ℚ) * 1 / (((⌊((2 : ℤ) : ℚ) * 1⌋).toNat : ℚ) - 1)) * 1) *
            (WaveParam.num 1).call (if (⌊((2 : ℤ) : ℚ) * 1⌋).toNat = 1 then 0
              else (i : ℚ) * 1 / (((⌊((2 : ℤ) : ℚ) * 1⌋).toNat : ℚ) - 1))) ∧
      w.samplerate = 2 ∧ w.significance = 1 ∧ w.duration = 1 :=
  c2_amended_constant_mode 1 (.num 1) 1 2 (fun x => x) (by norm_num) (by norm_num)

/-- Closed form of the Riemann-summation loop: starting at `time = t`,
`csumfreq = csum`, the loop runs `n = max(ceil((duration - t)/dt), 0)`
iterations and its `k`-th emitted sample uses the phase accumulated up
to and including step `k` (the source advances `csumfreq` before
appending) and the amplitude at the step's start time. -/
theorem tvLoop_closed_form (freq amp waveform : ℚ → ℚ) (D dt : ℚ) (hdt : 0 < dt) :
    ∀ (n : ℕ) (t csum : ℚ), (⌈(D - t) / dt⌉).toNat = n →
      tvLoop freq amp waveform D dt hdt t csum =
        List.ofFn (fun k : Fin n =>
          waveform (csum + ∑ j ∈ Finset.range (↑k + 1), freq (t + ↑j * dt) * dt) *
            amp (t + ↑k * dt)) := by
  intro n
  induction n with
  | zero =>
    intro t csum h0
    rw [tvLoop]
    rw [dif_neg ?_]
    · simp
    · intro hlt
      have hpos : (0 : ℚ) < (D - t) / dt := div_pos (sub_pos.mpr hlt) hdt
      have := Int.ceil_pos.mpr hpos
      omega
  | succ n ih =>
    intro t csum h
    have hlt : t < D := by
      by_contra hge
      push_neg at hge
      have hnp : (D - t) / dt ≤ 0 := div_nonpos_iff.mpr (Or.inr ⟨by linarith, hdt.le⟩)
      have hc : ⌈(D - t) / dt⌉ ≤ 0 := Int.ceil_le.mpr (by exact_mod_cast hnp)
      omega
    rw [tvLoop, dif_pos hlt]
    have hnext : (⌈(D - (t + dt)) / dt⌉).toNat = n := by
      have hstep : (D - (t + dt)) / dt = (D - t) / dt - 1 := by
        field_simp
        ring
      rw [hstep, Int.ceil_sub_one]
      have hone : (1 : ℤ) ≤ ⌈(D - t) / dt⌉ := by omega
      omega
    rw [ih (t + dt) (csum + freq t * dt) hnext, List.ofFn_succ]
    congr 1
    · simp [Finset.sum_range_one]
    · congr 1
      funext k
      have hshift : ∑ j ∈ Finset.range (↑k + 1 + 1), freq (t + ↑j * dt) * dt
          = (∑ j ∈ Finset.range (↑k + 1), freq (t + dt + ↑j * dt) * dt)
            + freq t * dt := by
        rw [Finset.sum_range_succ']
        congr 1
        · refine Finset.sum_congr rfl fun j _ => ?_
          congr 1
          push_cast
          ring
        · norm_num
      simp only [Fin.val_succ]
      rw [hshift]
      congr 1
      · congr 1
        ring
      · congr 1
        push_cast
        ring

/-- C7: for a callable frequency, a valid duration `D ≥ 0` and sample
rate `R > 0`, `new` computes the buffer with the source's
`while time < duration` loop (`phase += freq(t)*dt` first, then emit
`shape(phase) * amp(t)`, then `t += dt`, with `dt = 1/R`): the emitted
sample `i` is `shape(∑_{j ≤ i} freq(j/R)/R) * amp(i/R)` — the phase
already includes step `i`'s increment — and the buffer length is the
loop's iteration count `⌈D·R⌉` (the number of steps with `t < D`),
which is the ceiling, not the constant-mode `floor(R·D)` count. -/
theorem c7_time_varying_mode (f : ℚ → ℚ) (amp : WaveParam) (D : ℚ) (R : ℤ)
    (waveform : ℚ → ℚ) (hD : 0 ≤ D) (hR : 0 < R) :
    ∃ w, AudioWave.new (.fn f) amp D R waveform = .ok w ∧
      w.wave.length = (⌈D * (R : ℚ)⌉).toNat ∧
      (∀ i : ℕ, i < (⌈D * (R : ℚ)⌉).toNat →
        w.wave.getD i 0 =
          waveform (∑ j ∈ Finset.range (i + 1), f ((j : ℚ) / (R : ℚ)) * (1 / (R : ℚ)))
            * amp.call ((i : ℚ) / (R : ℚ))) ∧
      w.samplerate = R ∧ w.significance = 1 ∧ w.duration = D := by
  have hz : ¬ R = 0 := by omega
  have hRq : (0 : ℚ) < (R : ℚ) := by exact_mod_cast hR
  have hdt : (0 : ℚ) < 1 / (R : ℚ) := by positivity
  have hDR : (D - 0) / (1 / (R : ℚ)) = D * (R : ℚ) := by
    rw [sub_zero, one_div, div_eq_mul_inv, inv_inv]
  unfold AudioWave.new
  rw [dif_neg (by push_neg; exact ⟨hD, hR.le⟩)]
  dsimp only
  rw [dif_neg hz]
  have hcf := tvLoop_closed_form f amp.call waveform D (1 / (R : ℚ)) hdt
    ((⌈D * (R : ℚ)⌉).toNat) 0 0 (by rw [hDR])
  refine ⟨_, rfl, ?_, ?_, rfl, rfl, rfl⟩
  · show (tvLoop _ _ _ _ _ _ 0 0).length = _
    rw [hcf, List.length_ofFn]
  · intro i hi
    show (tvLoop _ _ _ _ _ _ 0 0).getD i 0 = _
    rw [hcf]
    rw [List.getD_eq_getElem _ _ (by rw [List.length_ofFn]; exact hi)]
    rw [List.getElem_ofFn]
    simp only [zero_add, mul_one_div]

/-- Witness for C7 at a constant-`2` callable frequency, unit constant
amplitude, `D = 1`, `R = 4`, identity shape. -/
theorem c7_time_varying_mode_witness :
    ∃ w, AudioWave.new (.fn fun _ => 2) (.num 1) 1 4 (fun x => x) = .ok w ∧
      w.wave.length = (⌈(1 : ℚ) * ((4 : ℤ) : ℚ)⌉).toNat ∧
      (∀ i : ℕ, i < (⌈(1 : ℚ) * ((4 : ℤ) : ℚ)⌉).toNat →
        w.wave.getD i 0 =
          (fun x => x) (∑ j ∈ Finset.range (i + 1),
              (fun _ : ℚ => (2 : ℚ)) ((j : ℚ) / ((4 : ℤ) : ℚ)) * (1 / ((4 : ℤ) : ℚ)))
            * (WaveParam.num 1).call ((i : ℚ) / ((4 : ℤ) : ℚ))) ∧
      w.samplerate = 4 ∧ w.significance = 1 ∧ w.duration = 1 :=
  c7_time_varying_mode (fun _ => 2) (.num 1) 1 4 (fun x => x) (by norm_num) (by norm_num)
